import Mathlib

/-
Verification of the HotelVault in-memory storage layer
(`server/storage.ts`, class `MemStorage`) and the dashboard metrics
route (`server/routes.ts`).

Modelling conventions:
* A JavaScript `Map<string, T>` is an association list in insertion
  order; `Map.set` replaces the entry in place when the key is already
  present and appends otherwise, `Map.values()` is the list of second
  components in order.
* JavaScript `Date` values are their millisecond timestamps (`Int`);
  comparisons between `Date`s in the source compare these numbers.
* A TypeScript `Partial<T>` is a structure with every field wrapped in
  `Option`; `none` means the key is absent from the partial, and the
  spread `{ ...record, ...partial }` takes the partial field when it is
  present and the record field otherwise.
* `throw new Error msg` is `Except.error msg`; a method that can throw
  returns the (possibly unchanged) map together with the `Except`.
* JavaScript number arithmetic on the metrics route is IEEE-754
  binary64: `fl` rounds an exact rational to the nearest double (ties
  to even), and `Math.round` of a finite double is the integer nearest
  to its exact value, ties toward positive infinity (Mathlib `round`);
  `0 / 0` is `NaN`, propagated and modelled as `none`.
* The SQL `decimal` columns (`basePrice`, `totalAmount`) are kept as the
  strings they are in the TypeScript row types.
-/

namespace HotelVault

/-- JavaScript `Map<string, A>` as an association list in insertion
order. `mapSet` is `Map.set`: replace in place when the key exists,
append otherwise. -/
def mapSet {A : Type} (m : List (String × A)) (k : String) (v : A) :
    List (String × A) :=
  match m with
  | [] => [(k, v)]
  | e :: t => if e.1 = k then (k, v) :: t else e :: mapSet t k v

/-- `Map.get`: the value stored under `k`, if any. -/
def mapGet {A : Type} (m : List (String × A)) (k : String) : Option A :=
  (m.find? fun e => decide (e.1 = k)).map (fun e => e.2)

/-- `Map.values()`: the stored values in insertion order. -/
def mapValues {A : Type} (m : List (String × A)) : List A :=
  m.map (fun e => e.2)

/-- The `rooms` row type of `shared/schema.ts` (`Room`): `lastCleaned`
is a nullable timestamp, `notes` a nullable text, `amenities` a jsonb
array of strings. -/
structure Room where
  id : String
  number : String
  type : String
  status : String
  floor : Int
  maxOccupancy : Int
  basePrice : String
  amenities : List String
  lastCleaned : Option Int
  notes : Option String
deriving DecidableEq

/-- TypeScript `Partial<Room>`: every top-level key optional. -/
structure RoomPatch where
  id : Option String := none
  number : Option String := none
  type : Option String := none
  status : Option String := none
  floor : Option Int := none
  maxOccupancy : Option Int := none
  basePrice : Option String := none
  amenities : Option (List String) := none
  lastCleaned : Option (Option Int) := none
  notes : Option (Option String) := none
deriving DecidableEq

/-- The spread `{ ...room, ...updates }` in `MemStorage.updateRoom`:
top-level shallow merge, every key present in `updates` overwrites the
corresponding field of `room` wholesale. -/
def mergeRoom (room : Room) (updates : RoomPatch) : Room where
  id := updates.id.getD room.id
  number := updates.number.getD room.number
  type := updates.type.getD room.type
  status := updates.status.getD room.status
  floor := updates.floor.getD room.floor
  maxOccupancy := updates.maxOccupancy.getD room.maxOccupancy
  basePrice := updates.basePrice.getD room.basePrice
  amenities := updates.amenities.getD room.amenities
  lastCleaned := updates.lastCleaned.getD room.lastCleaned
  notes := updates.notes.getD room.notes

/-- The `private rooms: Map<string, Room>` collection. -/
abbrev RoomsMap : Type := List (String × Room)

/-- `MemStorage.updateRoom`: look the id up, throw `"Room not found"`
when absent, otherwise store and return `{ ...room, ...updates }`. -/
def updateRoom (rooms : RoomsMap) (id : String) (updates : RoomPatch) :
    RoomsMap × Except String Room :=
  match mapGet rooms id with
  | none => (rooms, Except.error "Room not found")
  | some room =>
      let updatedRoom := mergeRoom room updates
      (mapSet rooms id updatedRoom, Except.ok updatedRoom)

/-- `MemStorage.updateRoomStatus`: delegates to
`this.updateRoom(id, { status })`. -/
def updateRoomStatus (rooms : RoomsMap) (id : String) (status : String) :
    RoomsMap × Except String Room :=
  updateRoom rooms id { status := some status }

/-- `InsertRoom = z.infer<typeof insertRoomSchema>`: the validated
creation input, with `id` and `lastCleaned` omitted by
`insertRoomSchema` so the caller cannot supply either. -/
structure InsertRoom where
  number : String
  type : String
  status : String
  floor : Int
  maxOccupancy : Int
  basePrice : String
  amenities : List String
  notes : Option String
deriving DecidableEq

/-- `MemStorage.createRoom`: `{ ...insertRoom, id, lastCleaned: null }`
stored under the freshly generated id (`randomUUID()` modelled as the
parameter `freshId`). -/
def createRoom (rooms : RoomsMap) (freshId : String) (insertRoom : InsertRoom) :
    RoomsMap × Room :=
  let room : Room :=
    { id := freshId
      number := insertRoom.number
      type := insertRoom.type
      status := insertRoom.status
      floor := insertRoom.floor
      maxOccupancy := insertRoom.maxOccupancy
      basePrice := insertRoom.basePrice
      amenities := insertRoom.amenities
      lastCleaned := none
      notes := insertRoom.notes }
  (mapSet rooms freshId room, room)

/-- The `bookings` row type of `shared/schema.ts` (`Booking`):
`checkIn`/`checkOut` are timestamps, `totalAmount` a decimal string. -/
structure Booking where
  id : String
  roomId : String
  guestId : String
  checkIn : Int
  checkOut : Int
  adults : Int
  children : Option Int
  totalAmount : String
  status : String
  channel : String
  specialRequests : Option String
  createdAt : Option Int
  cloudbedsSyncId : Option String
deriving DecidableEq

/-- TypeScript `Partial<Booking>`: every top-level key optional. -/
structure BookingPatch where
  id : Option String := none
  roomId : Option String := none
  guestId : Option String := none
  checkIn : Option Int := none
  checkOut : Option Int := none
  adults : Option Int := none
  children : Option (Option Int) := none
  totalAmount : Option String := none
  status : Option String := none
  channel : Option String := none
  specialRequests : Option (Option String) := none
  createdAt : Option (Option Int) := none
  cloudbedsSyncId : Option (Option String) := none
deriving DecidableEq

/-- The spread `{ ...booking, ...updates }` in
`MemStorage.updateBooking`: top-level shallow merge. -/
def mergeBooking (booking : Booking) (updates : BookingPatch) : Booking where
  id := updates.id.getD booking.id
  roomId := updates.roomId.getD booking.roomId
  guestId := updates.guestId.getD booking.guestId
  checkIn := updates.checkIn.getD booking.checkIn
  checkOut := updates.checkOut.getD booking.checkOut
  adults := updates.adults.getD booking.adults
  children := updates.children.getD booking.children
  totalAmount := updates.totalAmount.getD booking.totalAmount
  status := updates.status.getD booking.status
  channel := updates.channel.getD booking.channel
  specialRequests := updates.specialRequests.getD booking.specialRequests
  createdAt := updates.createdAt.getD booking.createdAt
  cloudbedsSyncId := updates.cloudbedsSyncId.getD booking.cloudbedsSyncId

/-- The `private bookings: Map<string, Booking>` collection. -/
abbrev BookingsMap : Type := List (String × Booking)

/-- `MemStorage.updateBooking`: look the id up, throw
`"Booking not found"` when absent, otherwise store and return
`{ ...booking, ...updates }`. -/
def updateBooking (bookings : BookingsMap) (id : String)
    (updates : BookingPatch) : BookingsMap × Except String Booking :=
  match mapGet bookings id with
  | none => (bookings, Except.error "Booking not found")
  | some booking =>
      let updatedBooking := mergeBooking booking updates
      (mapSet bookings id updatedBooking, Except.ok updatedBooking)

/-- `MemStorage.getBookingsByDateRange`: filter
`booking.checkIn >= checkIn && booking.checkOut <= checkOut` over
`Array.from(this.bookings.values())` (the list argument). -/
def getBookingsByDateRange (bookings : List Booking)
    (checkIn checkOut : Int) : List Booking :=
  bookings.filter fun booking =>
    decide (checkIn ≤ booking.checkIn) && decide (booking.checkOut ≤ checkOut)

/-- `MemStorage.getTodaysArrivals`: the source computes `today` as the
local midnight of the current date and `tomorrow` as the next local
midnight, then filters
`booking.checkIn >= today && booking.checkIn < tomorrow`. The two
clock-derived instants are parameters here. -/
def getTodaysArrivals (bookings : List Booking)
    (today tomorrow : Int) : List Booking :=
  bookings.filter fun booking =>
    decide (today ≤ booking.checkIn) && decide (booking.checkIn < tomorrow)

/-- `rooms.filter(room => room.status === s).length`, the per-status
count used by the `/api/dashboard/metrics` route. -/
def countByStatus (rooms : List Room) (s : String) : Nat :=
  (rooms.filter fun room => decide (room.status = s)).length

/-- Round a rational to the nearest integer, ties to even — the
rounding used by every IEEE-754 binary64 arithmetic operation in its
default mode. -/
def rne (x : ℚ) : ℤ :=
  if x - ⌊x⌋ < 1 / 2 then ⌊x⌋
  else if 1 / 2 < x - ⌊x⌋ then ⌊x⌋ + 1
  else if ⌊x⌋ % 2 = 0 then ⌊x⌋ else ⌊x⌋ + 1

/-- The exact value of the IEEE-754 binary64 double nearest to the
rational `q` (round to nearest, ties to even): the significand has 53
bits, so a normal binade `[2^e, 2^(e+1))` is a grid of multiples of
`2^(e-52)`, and below `2^(-1022)` the grid stays at the subnormal
quantum `2^(-1074)` — hence the `max` on the exponent. Overflow to
infinity is not modelled: every value passed to `fl` in this
development lies in `[0, 101]`, far below the largest double. -/
def fl (q : ℚ) : ℚ :=
  if q = 0 then 0
  else
    (if q < 0 then -1 else 1) *
      (rne (|q| / 2 ^ (max (Int.log 2 |q|) (-1022) - 52)) : ℚ) *
      2 ^ (max (Int.log 2 |q|) (-1022) - 52)

/-- The `occupancyRate` computed by the `/api/dashboard/metrics` route:
`Math.round((occupiedRooms / totalRooms) * 100)`, evaluated in
JavaScript number (IEEE-754 binary64) arithmetic. The two counts are
array lengths, necessarily below `2^32` and hence exact doubles; the
division and the multiplication each round their exact result to the
nearest double (`fl`); `Math.round` on a finite double returns the
integer closest to its exact value, ties toward positive infinity,
which is Mathlib `round`. JavaScript `0 / 0` yields `NaN`, `NaN * 100`
is `NaN` and `Math.round(NaN)` is `NaN`, modelled as `none`. -/
def occupancyRate (rooms : List Room) : Option Int :=
  let totalRooms := rooms.length
  let occupiedRooms := countByStatus rooms "occupied"
  if totalRooms = 0 then none
  else some (round (fl (fl ((occupiedRooms : ℚ) / (totalRooms : ℚ)) * 100)))

/-- The `hotel_settings` row type of `shared/schema.ts`
(`HotelSetting`): the jsonb `value` column is kept opaque as a
string. -/
structure HotelSetting where
  id : String
  key : String
  value : String
  updatedAt : Int
deriving DecidableEq

/-- The `private hotelSettings: Map<string, HotelSetting>` collection,
keyed by the generated id. -/
abbrev SettingsMap : Type := List (String × HotelSetting)

/-- `MemStorage.getHotelSetting`: first stored setting whose `key`
field equals the requested key, scanning
`Array.from(this.hotelSettings.values())`. -/
def getHotelSetting (settings : SettingsMap) (key : String) :
    Option HotelSetting :=
  (mapValues settings).find? fun setting => decide (setting.key = key)

/-- `MemStorage.updateHotelSetting`: upsert keyed by the `key` field.
When a setting with this key exists, `{ ...existing, value, updatedAt }`
is stored back under `existing.id`; otherwise a new setting is stored
under a fresh `randomUUID()` (the parameter `freshId`). `new Date()` is
the parameter `now`. -/
def updateHotelSetting (settings : SettingsMap) (key value : String)
    (now : Int) (freshId : String) : SettingsMap × HotelSetting :=
  match getHotelSetting settings key with
  | some existing =>
      let updated : HotelSetting :=
        { existing with value := value, updatedAt := now }
      (mapSet settings existing.id updated, updated)
  | none =>
      let setting : HotelSetting :=
        { id := freshId, key := key, value := value, updatedAt := now }
      (mapSet settings freshId setting, setting)

/-- A sample room used to instantiate the update theorems. -/
def roomA : Room :=
  { id := "a", number := "101", type := "Standard", status := "available",
    floor := 1, maxOccupancy := 2, basePrice := "285.00", amenities := ["WiFi"],
    lastCleaned := none, notes := none }

/-- Four sample rooms, exactly one of them occupied. -/
def sampleRooms : List Room :=
  [{ roomA with id := "r1" },
   { roomA with id := "r2", status := "occupied" },
   { roomA with id := "r3" },
   { roomA with id := "r4" }]

/-- Forty sample rooms, exactly 23 of them occupied. -/
def sampleRooms40 : List Room :=
  List.replicate 23 { roomA with status := "occupied" } ++
    List.replicate 17 roomA

/-- A sample booking used to instantiate the date-range theorems:
`checkIn` inside the queried range `[0, 10]`, `checkOut` after it. -/
def bookingB : Booking :=
  { id := "b1", roomId := "a", guestId := "g1", checkIn := 5, checkOut := 15,
    adults := 2, children := none, totalAmount := "285.00",
    status := "confirmed", channel := "direct", specialRequests := none,
    createdAt := none, cloudbedsSyncId := none }

/-- A booking checking in exactly at the local midnight instant `0`. -/
def bookingMidnight : Booking :=
  { bookingB with id := "b2", checkIn := 0, checkOut := 86400000 }

/-- A sample stored setting used to instantiate the upsert theorem. -/
def settingA : HotelSetting :=
  { id := "s1", key := "theme", value := "dark", updatedAt := 0 }

theorem mapGet_mapSet_self {A : Type} (m : List (String × A)) (k : String)
    (v : A) : mapGet (mapSet m k v) k = some v := by
  induction m with
  | nil => simp [mapSet, mapGet]
  | cons e t ih =>
    by_cases h : e.1 = k
    · simp [mapSet, h, mapGet]
    · simpa [mapSet, h, mapGet] using ih

theorem mem_keys_of_mapGet_eq_some {A : Type} {m : List (String × A)}
    {k : String} {v : A} (h : mapGet m k = some v) :
    k ∈ m.map Prod.fst := by
  unfold mapGet at h
  cases hf : m.find? (fun e => decide (e.1 = k)) with
  | none => rw [hf] at h; simp at h
  | some e =>
    have he : e ∈ m := List.mem_of_find?_eq_some hf
    have hk : e.1 = k := by simpa using List.find?_some hf
    exact hk ▸ List.mem_map_of_mem Prod.fst he

theorem mapSet_keys_of_mem {A : Type} {m : List (String × A)} {k : String}
    (v : A) (h : k ∈ m.map Prod.fst) :
    (mapSet m k v).map Prod.fst = m.map Prod.fst := by
  induction m with
  | nil => simp at h
  | cons e t ih =>
    by_cases he : e.1 = k
    · simp [mapSet, he]
    · have hk : k ∈ t.map Prod.fst := by
        rcases (by simpa using h) with h1 | h1
        · exact absurd h1.symm he
        · simpa using h1
      simp [mapSet, he, ih hk]

theorem mapSet_of_not_mem_keys {A : Type} {m : List (String × A)}
    {k : String} (v : A) (h : k ∉ m.map Prod.fst) :
    mapSet m k v = m ++ [(k, v)] := by
  induction m with
  | nil => simp [mapSet]
  | cons e t ih =>
    have he : ¬e.1 = k := fun hk => h (by simp [hk])
    have ht : k ∉ t.map Prod.fst := fun hk => h (by simp [hk])
    simp [mapSet, he, ih ht]

theorem mapSet_length_of_mem {A : Type} {m : List (String × A)} {k : String}
    (v : A) (h : k ∈ m.map Prod.fst) :
    (mapSet m k v).length = m.length := by
  have hc := congrArg List.length (mapSet_keys_of_mem v h)
  simpa using hc

theorem getHotelSetting_key {settings : SettingsMap} {key : String}
    {ex : HotelSetting} (h : getHotelSetting settings key = some ex) :
    ex.key = key := by
  simpa using List.find?_some h

theorem settingId_mem_keys {settings : SettingsMap} {key : String}
    {ex : HotelSetting} (hwf : ∀ p ∈ settings, p.1 = p.2.id)
    (h : getHotelSetting settings key = some ex) :
    ex.id ∈ settings.map Prod.fst := by
  have hm : ex ∈ mapValues settings := List.mem_of_find?_eq_some h
  rcases List.mem_map.mp hm with ⟨p, hp, hpe⟩
  have hpi : p.1 = ex.id := by rw [hwf p hp, hpe]
  exact hpi ▸ List.mem_map_of_mem Prod.fst hp

/-- After replacing the first setting whose `key` field matches by a
setting with the same id and the same `key` field, a lookup by that
key finds exactly the replacement. -/
theorem getHotelSetting_mapSet (settings : SettingsMap) (key : String)
    (ex u : HotelSetting) (hwf : ∀ p ∈ settings, p.1 = p.2.id)
    (hnd : (settings.map Prod.fst).Nodup)
    (hfind : getHotelSetting settings key = some ex)
    (hu : u.key = key) (_hid : u.id = ex.id) :
    getHotelSetting (mapSet settings ex.id u) key = some u := by
  induction settings with
  | nil => simp [getHotelSetting, mapValues] at hfind
  | cons e t ih =>
    by_cases hk : e.2.key = key
    · have hex : e.2 = ex := by
        have h2 : getHotelSetting (e :: t) key = some e.2 := by
          simp [getHotelSetting, mapValues, hk]
        rw [h2] at hfind
        exact Option.some.inj hfind
      have he1 : e.1 = ex.id := by rw [hwf e (List.mem_cons_self e t), hex]
      simp [mapSet, he1, getHotelSetting, mapValues, hu]
    · have hfind' : getHotelSetting t key = some ex := by
        simpa [getHotelSetting, mapValues, hk] using hfind
      have hwf' : ∀ p ∈ t, p.1 = p.2.id := fun p hp =>
        hwf p (List.mem_cons_of_mem e hp)
      have hndc : (e.1 :: t.map Prod.fst).Nodup := by
        simpa only [List.map_cons] using hnd
      have hnd2 := List.nodup_cons.mp hndc
      have hne : ¬e.1 = ex.id := fun hq =>
        hnd2.1 (hq ▸ settingId_mem_keys hwf' hfind')
      have hrec := ih hwf' hnd2.2 hfind'
      simpa [mapSet, hne, getHotelSetting, mapValues, hk] using hrec

/-- Appending a fresh entry whose setting carries the looked-up key
makes the lookup find it, provided no earlier setting matched. -/
theorem getHotelSetting_append_fresh (settings : SettingsMap) (key : String)
    (s : HotelSetting) (k : String)
    (hnone : getHotelSetting settings key = none) (hs : s.key = key) :
    getHotelSetting (settings ++ [(k, s)]) key = some s := by
  unfold getHotelSetting mapValues at *
  rw [List.map_append, List.find?_append, hnone]
  simp [hs]

theorem rne_eq_of_floor {x : ℚ} {n : ℤ} (hfl : ⌊x⌋ = n)
    (h : x - (n : ℚ) < 1 / 2) : rne x = n := by
  unfold rne
  rw [hfl, if_pos h]

/-- `Int.log 2` is the unique exponent whose binade brackets a
positive rational. -/
theorem int_log_eq_of {r : ℚ} {e : ℤ} (hr : 0 < r)
    (h1 : (2 : ℚ) ^ e ≤ r) (h2 : r < (2 : ℚ) ^ (e + 1)) :
    Int.log 2 r = e := by
  have hL1 : (2 : ℚ) ^ Int.log 2 r ≤ r := by
    have h := Int.zpow_log_le_self (b := 2) (R := ℚ) (by norm_num) hr
    push_cast at h
    exact h
  have hL2 : r < (2 : ℚ) ^ (Int.log 2 r + 1) := by
    have h := Int.lt_zpow_succ_log_self (b := 2) (R := ℚ) (by norm_num) r
    push_cast at h
    exact h
  by_contra hne
  rcases lt_or_gt_of_ne hne with hlt | hgt
  · have hle : (2 : ℚ) ^ (Int.log 2 r + 1) ≤ (2 : ℚ) ^ e :=
      zpow_le_zpow_right₀ (by norm_num) (by omega)
    exact absurd (hL2.trans_le hle) (not_lt.mpr h1)
  · have hle : (2 : ℚ) ^ (e + 1) ≤ (2 : ℚ) ^ Int.log 2 r :=
      zpow_le_zpow_right₀ (by norm_num) (by omega)
    exact absurd (h2.trans_le hle) (not_lt.mpr hL1)

/-- Evaluation rule for `fl` at a positive normal-range input with
known binade exponent and known rounded significand. -/
theorem fl_eq_of {q : ℚ} {e m : ℤ} (hq : 0 < q)
    (hlog : Int.log 2 q = e) (he : (-1022 : ℤ) ≤ e)
    (hm : rne (q / 2 ^ (e - 52)) = m) :
    fl q = (m : ℚ) * 2 ^ (e - 52) := by
  unfold fl
  rw [if_neg (ne_of_gt hq), abs_of_pos hq, hlog, max_eq_left he,
    if_neg (not_lt.mpr hq.le), hm, one_mul]

/-- `1/4` is exactly representable, so the double division `1 / 4`
is exact. -/
theorem fl_one_quarter : fl ((1 : ℚ) / 4) = 1 / 4 := by
  have hlog : Int.log 2 ((1 : ℚ) / 4) = -2 :=
    int_log_eq_of (by norm_num) (by norm_num) (by norm_num)
  have hx : ((1 : ℚ) / 4) / 2 ^ ((-2 : ℤ) - 52) = 4503599627370496 := by
    norm_num
  have hm : rne (((1 : ℚ) / 4) / 2 ^ ((-2 : ℤ) - 52)) = 4503599627370496 := by
    rw [hx]
    exact rne_eq_of_floor (by norm_num [Int.floor_eq_iff]) (by norm_num)
  rw [fl_eq_of (by norm_num) hlog (by norm_num) hm]
  norm_num

/-- `25` is exactly representable, so the double product
`0.25 * 100` is exact. -/
theorem fl_25 : fl ((1 : ℚ) / 4 * 100) = 25 := by
  have h100 : ((1 : ℚ) / 4 * 100) = 25 := by norm_num
  rw [h100]
  have hlog : Int.log 2 (25 : ℚ) = 4 :=
    int_log_eq_of (by norm_num) (by norm_num) (by norm_num)
  have hx : (25 : ℚ) / 2 ^ ((4 : ℤ) - 52) = 7036874417766400 := by
    norm_num
  have hm : rne ((25 : ℚ) / 2 ^ ((4 : ℤ) - 52)) = 7036874417766400 := by
    rw [hx]
    exact rne_eq_of_floor (by norm_num [Int.floor_eq_iff]) (by norm_num)
  rw [fl_eq_of (by norm_num) hlog (by norm_num) hm]
  norm_num

/-- The double nearest to `23/40 = 0.575` lies just below it:
`5179139571476070 * 2^(-53)`. -/
theorem fl_23_40 :
    fl ((23 : ℚ) / 40) = 5179139571476070 / 9007199254740992 := by
  have hlog : Int.log 2 ((23 : ℚ) / 40) = -1 :=
    int_log_eq_of (by norm_num) (by norm_num) (by norm_num)
  have hx : ((23 : ℚ) / 40) / 2 ^ ((-1 : ℤ) - 52) =
      25895697857380352 / 5 := by
    norm_num
  have hm : rne (((23 : ℚ) / 40) / 2 ^ ((-1 : ℤ) - 52)) =
      5179139571476070 := by
    rw [hx]
    exact rne_eq_of_floor (by rw [Int.floor_eq_iff]; constructor <;> norm_num)
      (by norm_num)
  rw [fl_eq_of (by norm_num) hlog (by norm_num) hm]
  norm_num

/-- Multiplying that double by `100` and rounding to the nearest
double gives `8092405580431359 * 2^(-47) = 57.49999999999999289…`. -/
theorem fl_5749 :
    fl ((5179139571476070 / 9007199254740992 : ℚ) * 100) =
      8092405580431359 / 140737488355328 := by
  have hq : ((5179139571476070 / 9007199254740992 : ℚ) * 100) =
      64739244643450875 / 1125899906842624 := by norm_num
  rw [hq]
  have hlog : Int.log 2 ((64739244643450875 : ℚ) / 1125899906842624) = 5 :=
    int_log_eq_of (by norm_num) (by norm_num) (by norm_num)
  have hx : ((64739244643450875 : ℚ) / 1125899906842624) /
      2 ^ ((5 : ℤ) - 52) = 64739244643450875 / 8 := by
    norm_num
  have hm : rne (((64739244643450875 : ℚ) / 1125899906842624) /
      2 ^ ((5 : ℤ) - 52)) = 8092405580431359 := by
    rw [hx]
    exact rne_eq_of_floor (by rw [Int.floor_eq_iff]; constructor <;> norm_num)
      (by norm_num)
  rw [fl_eq_of (by norm_num) hlog (by norm_num) hm]
  norm_num

theorem round_5749 :
    round ((8092405580431359 : ℚ) / 140737488355328) = 57 := by
  rw [round_eq, Int.floor_eq_iff]
  constructor <;> norm_num

theorem round_100_23_40 : round ((100 * (23 : ℚ)) / 40) = 58 := by
  rw [round_eq, Int.floor_eq_iff]
  constructor <;> norm_num

theorem round_100_1_4 : round ((100 * (1 : ℚ)) / 4) = 25 := by
  rw [round_eq, Int.floor_eq_iff]
  constructor <;> norm_num

/-- Any 4-room state with exactly one occupied room yields 25. -/
theorem occupancyRate_4_1 {rooms : List Room} (h4 : rooms.length = 4)
    (h1 : countByStatus rooms "occupied" = 1) :
    occupancyRate rooms = some 25 := by
  have hne : rooms.length ≠ 0 := by omega
  simp only [occupancyRate, hne, if_false, h4, h1]
  have hcast : ((1 : ℕ) : ℚ) / ((4 : ℕ) : ℚ) = (1 : ℚ) / 4 := by norm_num
  rw [hcast, fl_one_quarter, fl_25]
  have h25 : (25 : ℚ) = ((25 : ℤ) : ℚ) := by norm_num
  rw [h25, round_intCast]
  simp

/-- Any 40-room state with 23 occupied rooms yields 57: the double
evaluation of `(23/40)*100` lands at `57.49999999999999289…`, below
the exact `57.5`, and `Math.round` truncates the tie the other way. -/
theorem occupancyRate_40_23 {rooms : List Room} (h40 : rooms.length = 40)
    (h23 : countByStatus rooms "occupied" = 23) :
    occupancyRate rooms = some 57 := by
  have hne : rooms.length ≠ 0 := by omega
  simp only [occupancyRate, hne, if_false, h40, h23]
  have hcast : ((23 : ℕ) : ℚ) / ((40 : ℕ) : ℚ) = (23 : ℚ) / 40 := by norm_num
  rw [hcast, fl_23_40, fl_5749, round_5749]
  simp

/-- C1 counterexample: with zero rooms the dashboard occupancy rate is
`NaN` (modelled `none`), not the claimed zero-guard value `0` — the
route divides by `totalRooms` with no guard; and at a concrete
40-room store with 23 occupied the route returns 57 while the claimed
exact formula `round(100 * 23 / 40)` gives 58. -/
theorem occupancyRate_cex :
    (occupancyRate ([] : List Room) = none ∧
      occupancyRate ([] : List Room) ≠ some 0) ∧
    (occupancyRate sampleRooms40 = some 57 ∧
      round ((100 * (23 : ℚ)) / 40) = 58) := by
  refine ⟨⟨rfl, by decide⟩, occupancyRate_40_23 rfl rfl, round_100_23_40⟩

/-- C1 amended: for `totalRoomCount > 0` the occupancy rate is
`Math.round` of the IEEE-754 double evaluation of
`(occupiedRoomCount / totalRoomCount) * 100` and no exception is
raised; this agrees with the claimed exact formula at the documented
instance — any 4-room state with exactly 1 occupied room gives
`25 = round(100 * 1 / 4)` — but not universally: any 40-room state
with 23 occupied gives 57 while `round(100 * 23 / 40) = 58`; and with
`totalRoomCount = 0` the result is `NaN` (`none`), not the documented
zero-guard value `0`. -/
theorem occupancyRate_formula (rooms : List Room) :
    (0 < rooms.length →
      occupancyRate rooms =
        some (round (fl (fl ((countByStatus rooms "occupied" : ℚ) /
          (rooms.length : ℚ)) * 100)))) ∧
    (rooms.length = 4 → countByStatus rooms "occupied" = 1 →
      occupancyRate rooms = some 25 ∧
      (25 : ℤ) = round ((100 * (1 : ℚ)) / 4)) ∧
    (rooms.length = 40 → countByStatus rooms "occupied" = 23 →
      occupancyRate rooms = some 57 ∧
      (57 : ℤ) ≠ round ((100 * (23 : ℚ)) / 40)) ∧
    (rooms.length = 0 → occupancyRate rooms = none) := by
  refine ⟨?_, ?_, ?_, ?_⟩
  · intro h
    have hne : rooms.length ≠ 0 := Nat.pos_iff_ne_zero.mp h
    simp only [occupancyRate, hne, if_false]
  · intro h4 h1
    exact ⟨occupancyRate_4_1 h4 h1, by rw [round_100_1_4]⟩
  · intro h40 h23
    refine ⟨occupancyRate_40_23 h40 h23, ?_⟩
    rw [round_100_23_40]
    decide
  · intro h
    simp [occupancyRate, h]

theorem occupancyRate_formula_witness :
    occupancyRate sampleRooms = some 25 ∧
    occupancyRate sampleRooms40 = some 57 :=
  ⟨((occupancyRate_formula sampleRooms).2.1 rfl rfl).1,
   ((occupancyRate_formula sampleRooms40).2.2.1 rfl rfl).1⟩

/-- C2: `getBookingsByDateRange(start, end)` keeps a stored booking iff
`checkIn >= start` and `checkOut <= end` — containment, not overlap; in
particular a booking whose `checkIn` lies inside `[start, end]` but
whose `checkOut` is after `end` is excluded. -/
theorem getBookingsByDateRange_containment (bookings : List Booking)
    (rangeStart rangeEnd : Int) :
    (∀ b, b ∈ getBookingsByDateRange bookings rangeStart rangeEnd ↔
      b ∈ bookings ∧ rangeStart ≤ b.checkIn ∧ b.checkOut ≤ rangeEnd) ∧
    (∀ b, rangeStart ≤ b.checkIn → b.checkIn ≤ rangeEnd →
      rangeEnd < b.checkOut →
      b ∉ getBookingsByDateRange bookings rangeStart rangeEnd) := by
  constructor
  · intro b
    simp [getBookingsByDateRange, List.mem_filter, and_assoc]
  · intro b _ _ hout hmem
    have h := (List.mem_filter.mp hmem).2
    simp only [Bool.and_eq_true, decide_eq_true_eq] at h
    exact absurd h.2 (not_le.mpr hout)

theorem getBookingsByDateRange_containment_witness :
    bookingB ∉ getBookingsByDateRange [bookingB] 0 10 :=
  (getBookingsByDateRange_containment [bookingB] 0 10).2 bookingB
    (by decide) (by decide) (by decide)

/-- C3: an update on a present entity is a top-level shallow merge.
Stated for the two cited operations, `updateRoom` and `updateBooking`:
the stored and returned entity is `{ ...record, ...partial }`, every
field named in the partial takes exactly the supplied value (a nested
value such as the `amenities` array is replaced wholesale), and every
field absent from the partial keeps its pre-update value. -/
theorem update_shallow_merge :
    (∀ (rooms : RoomsMap) (id : String) (room : Room) (p : RoomPatch),
      mapGet rooms id = some room →
        (updateRoom rooms id p).2 = Except.ok (mergeRoom room p) ∧
        mapGet (updateRoom rooms id p).1 id = some (mergeRoom room p) ∧
        (∀ v, p.id = some v → (mergeRoom room p).id = v) ∧
        (p.id = none → (mergeRoom room p).id = room.id) ∧
        (∀ v, p.number = some v → (mergeRoom room p).number = v) ∧
        (p.number = none → (mergeRoom room p).number = room.number) ∧
        (∀ v, p.type = some v → (mergeRoom room p).type = v) ∧
        (p.type = none → (mergeRoom room p).type = room.type) ∧
        (∀ v, p.status = some v → (mergeRoom room p).status = v) ∧
        (p.status = none → (mergeRoom room p).status = room.status) ∧
        (∀ v, p.floor = some v → (mergeRoom room p).floor = v) ∧
        (p.floor = none → (mergeRoom room p).floor = room.floor) ∧
        (∀ v, p.maxOccupancy = some v → (mergeRoom room p).maxOccupancy = v) ∧
        (p.maxOccupancy = none →
          (mergeRoom room p).maxOccupancy = room.maxOccupancy) ∧
        (∀ v, p.basePrice = some v → (mergeRoom room p).basePrice = v) ∧
        (p.basePrice = none → (mergeRoom room p).basePrice = room.basePrice) ∧
        (∀ v, p.amenities = some v → (mergeRoom room p).amenities = v) ∧
        (p.amenities = none → (mergeRoom room p).amenities = room.amenities) ∧
        (∀ v, p.lastCleaned = some v → (mergeRoom room p).lastCleaned = v) ∧
        (p.lastCleaned = none →
          (mergeRoom room p).lastCleaned = room.lastCleaned) ∧
        (∀ v, p.notes = some v → (mergeRoom room p).notes = v) ∧
        (p.notes = none → (mergeRoom room p).notes = room.notes)) ∧
    (∀ (bookings : BookingsMap) (id : String) (b : Booking) (p : BookingPatch),
      mapGet bookings id = some b →
        (updateBooking bookings id p).2 = Except.ok (mergeBooking b p) ∧
        mapGet (updateBooking bookings id p).1 id = some (mergeBooking b p) ∧
        (∀ v, p.checkIn = some v → (mergeBooking b p).checkIn = v) ∧
        (p.checkIn = none → (mergeBooking b p).checkIn = b.checkIn) ∧
        (∀ v, p.checkOut = some v → (mergeBooking b p).checkOut = v) ∧
        (p.checkOut = none → (mergeBooking b p).checkOut = b.checkOut) ∧
        (∀ v, p.totalAmount = some v → (mergeBooking b p).totalAmount = v) ∧
        (p.totalAmount = none →
          (mergeBooking b p).totalAmount = b.totalAmount) ∧
        (∀ v, p.status = some v → (mergeBooking b p).status = v) ∧
        (p.status = none → (mergeBooking b p).status = b.status) ∧
        (∀ v, p.channel = some v → (mergeBooking b p).channel = v) ∧
        (p.channel = none → (mergeBooking b p).channel = b.channel) ∧
        (∀ v, p.specialRequests = some v →
          (mergeBooking b p).specialRequests = v) ∧
        (p.specialRequests = none →
          (mergeBooking b p).specialRequests = b.specialRequests)) := by
  constructor
  · intro rooms id room p h
    refine ⟨by simp [updateRoom, h], by simp [updateRoom, h, mapGet_mapSet_self],
      ?_, ?_, ?_, ?_, ?_, ?_, ?_, ?_, ?_, ?_, ?_, ?_, ?_, ?_, ?_, ?_, ?_, ?_,
      ?_, ?_⟩ <;>
      first
        | (intro v hv; simp [mergeRoom, hv])
        | (intro hv; simp [mergeRoom, hv])
  · intro bookings id b p h
    refine ⟨by simp [updateBooking, h],
      by simp [updateBooking, h, mapGet_mapSet_self],
      ?_, ?_, ?_, ?_, ?_, ?_, ?_, ?_, ?_, ?_, ?_, ?_⟩ <;>
      first
        | (intro v hv; simp [mergeBooking, hv])
        | (intro hv; simp [mergeBooking, hv])

theorem update_shallow_merge_witness :
    (updateRoom [("a", roomA)] "a" { status := some "occupied" }).2 =
      Except.ok (mergeRoom roomA { status := some "occupied" }) ∧
    (mergeRoom roomA { status := some "occupied" }).status = "occupied" ∧
    (mergeRoom roomA { status := some "occupied" }).number = roomA.number := by
  have h := update_shallow_merge.1 [("a", roomA)] "a" roomA
    { status := some "occupied" } rfl
  exact ⟨h.1, h.2.2.2.2.2.2.2.2.1 "occupied" rfl, h.2.2.2.2.2.1 rfl⟩

/-- C4: updating an id that is not in the collection throws the
NotFound-style error `"Room not found"` and performs no mutation: the
map after the failed call is exactly the map before it, and no entity
is created or modified. -/
theorem updateRoom_unknown_id (rooms : RoomsMap) (id : String)
    (updates : RoomPatch) (h : mapGet rooms id = none) :
    updateRoom rooms id updates = (rooms, Except.error "Room not found") := by
  simp [updateRoom, h]

theorem updateRoom_unknown_id_witness :
    updateRoom [] "missing" {} = ([], Except.error "Room not found") :=
  updateRoom_unknown_id [] "missing" {} rfl

/-- C6: `getTodaysArrivals` returns exactly the stored bookings whose
`checkIn` lies in the half-open interval `[today, tomorrow)` between
consecutive local midnights: a booking checking in exactly at local
midnight today is included, one checking in before midnight (for
example 23:59:59 yesterday) is excluded, and one checking in exactly at
local midnight tomorrow is excluded. -/
theorem getTodaysArrivals_halfOpen (bookings : List Booking)
    (today tomorrow : Int) :
    (∀ b, b ∈ getTodaysArrivals bookings today tomorrow ↔
      b ∈ bookings ∧ today ≤ b.checkIn ∧ b.checkIn < tomorrow) ∧
    (∀ b, b ∈ bookings → b.checkIn = today → today < tomorrow →
      b ∈ getTodaysArrivals bookings today tomorrow) ∧
    (∀ b, b.checkIn < today →
      b ∉ getTodaysArrivals bookings today tomorrow) ∧
    (∀ b, b.checkIn = tomorrow →
      b ∉ getTodaysArrivals bookings today tomorrow) := by
  have hmem : ∀ b, b ∈ getTodaysArrivals bookings today tomorrow ↔
      b ∈ bookings ∧ today ≤ b.checkIn ∧ b.checkIn < tomorrow := by
    intro b
    simp [getTodaysArrivals, List.mem_filter, and_assoc]
  refine ⟨hmem, ?_, ?_, ?_⟩
  · intro b hb hck hlt
    exact (hmem b).mpr ⟨hb, le_of_eq hck.symm, hck ▸ hlt⟩
  · intro b hlt hb
    exact absurd ((hmem b).mp hb).2.1 (not_le.mpr hlt)
  · intro b hck hb
    exact absurd ((hmem b).mp hb).2.2 (hck ▸ lt_irrefl tomorrow)

theorem getTodaysArrivals_halfOpen_witness :
    bookingMidnight ∈ getTodaysArrivals [bookingMidnight] 0 86400000 :=
  (getTodaysArrivals_halfOpen [bookingMidnight] 0 86400000).2.1 bookingMidnight
    (by decide) rfl (by decide)

/-- C7 counterexample: because `{ ...room, ...updates }` merges every
key of the partial, `updateRoom("a", { id: "b" })` on a store holding a
room with id `"a"` returns and stores (still under the map key `"a"`)
an entity whose `id` field is now `"b"`: the id field of a stored
entity does change under an update whose partial contains an `id`
key. -/
theorem updateRoom_id_overwritten_cex :
    (updateRoom [("a", roomA)] "a" { id := some "b" }).2 =
      Except.ok { roomA with id := "b" } ∧
    mapGet (updateRoom [("a", roomA)] "a" { id := some "b" }).1 "a" =
      some { roomA with id := "b" } ∧
    ({ roomA with id := "b" } : Room).id ≠ roomA.id := by
  exact ⟨rfl, rfl, by decide⟩

/-- C7 amended: an update never changes, adds, reuses or removes a map
key — the merged entity is stored under the original key `id` — and
whenever the partial does not itself contain an `id` key the `id`
field of the stored and returned entity equals its pre-update value;
but a partial containing an `id` key overwrites the stored `id` field
(see the counterexample). Stated for `updateRoom` and
`updateBooking`. -/
theorem update_preserves_id_and_keys :
    (∀ (rooms : RoomsMap) (id : String) (room : Room) (p : RoomPatch),
      mapGet rooms id = some room →
        (updateRoom rooms id p).1.map Prod.fst = rooms.map Prod.fst ∧
        (p.id = none →
          (mergeRoom room p).id = room.id ∧
          (updateRoom rooms id p).2 = Except.ok (mergeRoom room p) ∧
          mapGet (updateRoom rooms id p).1 id = some (mergeRoom room p))) ∧
    (∀ (bookings : BookingsMap) (id : String) (b : Booking) (p : BookingPatch),
      mapGet bookings id = some b →
        (updateBooking bookings id p).1.map Prod.fst = bookings.map Prod.fst ∧
        (p.id = none → (mergeBooking b p).id = b.id)) := by
  constructor
  · intro rooms id room p h
    refine ⟨?_, fun hid => ⟨by simp [mergeRoom, hid], by simp [updateRoom, h],
      by simp [updateRoom, h, mapGet_mapSet_self]⟩⟩
    have hkeys := mapSet_keys_of_mem (mergeRoom room p)
      (mem_keys_of_mapGet_eq_some h)
    simpa [updateRoom, h] using hkeys
  · intro bookings id b p h
    refine ⟨?_, fun hid => by simp [mergeBooking, hid]⟩
    have hkeys := mapSet_keys_of_mem (mergeBooking b p)
      (mem_keys_of_mapGet_eq_some h)
    simpa [updateBooking, h] using hkeys

theorem update_preserves_id_and_keys_witness :
    (updateRoom [("a", roomA)] "a"
      { floor := some 2 }).1.map Prod.fst = [("a", roomA)].map Prod.fst ∧
    (mergeRoom roomA { floor := some 2 }).id = roomA.id := by
  have h := update_preserves_id_and_keys.1 [("a", roomA)] "a" roomA
    { floor := some 2 } rfl
  exact ⟨h.1, (h.2 rfl).1⟩

/-- C8: `updateHotelSetting(k, v)` upserts by the `key` field, not by
id. When a setting with key `k` exists (under the well-formedness of
the settings map: entries keyed by their setting id, ids distinct),
that same setting — same id, same key — receives value `v` and the
refreshed `updatedAt`, no entity is added; otherwise a brand new
setting with the fresh id, key `k` and value `v` is appended. In both
cases a subsequent `getHotelSetting(k)` returns a setting whose value
is `v`. -/
theorem updateHotelSetting_upsert_by_key :
    (∀ (settings : SettingsMap) (key value : String) (now : Int)
        (freshId : String) (ex : HotelSetting),
      (∀ p ∈ settings, p.1 = p.2.id) →
      (settings.map Prod.fst).Nodup →
      getHotelSetting settings key = some ex →
        (updateHotelSetting settings key value now freshId).2 =
          { id := ex.id, key := ex.key, value := value, updatedAt := now } ∧
        ex.key = key ∧
        (updateHotelSetting settings key value now freshId).1.length =
          settings.length ∧
        getHotelSetting
            (updateHotelSetting settings key value now freshId).1 key =
          some { id := ex.id, key := ex.key, value := value,
                 updatedAt := now }) ∧
    (∀ (settings : SettingsMap) (key value : String) (now : Int)
        (freshId : String),
      getHotelSetting settings key = none →
      freshId ∉ settings.map Prod.fst →
        (updateHotelSetting settings key value now freshId).2 =
          { id := freshId, key := key, value := value, updatedAt := now } ∧
        (updateHotelSetting settings key value now freshId).1 =
          settings ++
            [(freshId,
              { id := freshId, key := key, value := value,
                updatedAt := now })] ∧
        getHotelSetting
            (updateHotelSetting settings key value now freshId).1 key =
          some { id := freshId, key := key, value := value,
                 updatedAt := now }) := by
  constructor
  · intro settings key value now freshId ex hwf hnd hfind
    have hkey := getHotelSetting_key hfind
    have hmem := settingId_mem_keys hwf hfind
    refine ⟨by simp [updateHotelSetting, hfind], hkey, ?_, ?_⟩
    · have hlen := mapSet_length_of_mem
        ({ ex with value := value, updatedAt := now }) hmem
      simpa [updateHotelSetting, hfind] using hlen
    · have hget := getHotelSetting_mapSet settings key ex
        { ex with value := value, updatedAt := now } hwf hnd hfind hkey rfl
      simpa [updateHotelSetting, hfind] using hget
  · intro settings key value now freshId hnone hfresh
    have happ := mapSet_of_not_mem_keys
      ({ id := freshId, key := key, value := value,
         updatedAt := now } : HotelSetting) hfresh
    refine ⟨by simp [updateHotelSetting, hnone], ?_, ?_⟩
    · simpa [updateHotelSetting, hnone] using happ
    · have hget := getHotelSetting_append_fresh settings key
        { id := freshId, key := key, value := value, updatedAt := now }
        freshId hnone rfl
      simpa [updateHotelSetting, hnone, happ] using hget

theorem updateHotelSetting_upsert_by_key_witness :
    (updateHotelSetting [("s1", settingA)] "theme" "light" 1 "s2").2 =
      { id := settingA.id, key := settingA.key, value := "light",
        updatedAt := 1 } ∧
    getHotelSetting
        (updateHotelSetting [("s1", settingA)] "theme" "light" 1 "s2").1
        "theme" =
      some { id := settingA.id, key := settingA.key, value := "light",
             updatedAt := 1 } := by
  have h := updateHotelSetting_upsert_by_key.1 [("s1", settingA)] "theme"
    "light" 1 "s2" settingA (by decide) (by decide) rfl
  exact ⟨h.1, h.2.2.2⟩

/-- C9: `updateRoomStatus(id, status)` is definitionally the call
`updateRoom(id, { status })`: same returned value (or the same failure)
and the same resulting map, for every id and status string. -/
theorem updateRoomStatus_eq_updateRoom (rooms : RoomsMap) (id status : String) :
    updateRoomStatus rooms id status =
      updateRoom rooms id { status := some status } := rfl

/-- C10: every room built by `createRoom` starts with
`lastCleaned = null`, both as returned to the caller and as stored in
the map under the fresh id; the creation input has no `lastCleaned`
field to supply. -/
theorem createRoom_lastCleaned_null (rooms : RoomsMap) (freshId : String)
    (insertRoom : InsertRoom) :
    (createRoom rooms freshId insertRoom).2.lastCleaned = none ∧
    mapGet (createRoom rooms freshId insertRoom).1 freshId =
      some (createRoom rooms freshId insertRoom).2 := by
  exact ⟨rfl, mapGet_mapSet_self ..⟩

end HotelVault
